import Mathlib

/-!
Verification of the pepbind-SVM feature-generation and evaluation code.

The Python sources (src/generateFeatures.py and src/predict.py) are embedded
shallowly: Python strings become lists of characters, Python ints become
naturals or integers, Python floats become rationals, and code that can raise
an exception returns a value in the Except monad, with one constructor of
PyError per exception kind that can occur.
-/

namespace PepBind

/-- The fixed 20-letter amino-acid alphabet of generateFeatures.py
(the string literal ACDEFGHIKLMNPQRSTVWY, as a list of characters). -/
def aminoAcids : List Char :=
  ['A','C','D','E','F','G','H','I','K','L','M','N','P','Q','R','S','T','V','W','Y']

/-- Exceptions the embedded Python code can raise.  The last constructor is
the explicit configuration error that the specification prescribes for an
unsupported model kind; the code itself never produces it. -/
inductive PyError where
  | valueError
  | zeroDivisionError
  | keyError
  | typeError
  | unboundLocalError
  | unsupportedModelKind
  deriving DecidableEq, Repr

/-- Scanner for Python str.count with a nonempty pattern: walks the text one
character at a time; the counter k is the number of characters still covered
by the previously counted match, so matches are non-overlapping, greedy,
left to right, exactly as str.count finds them. -/
def pyCountAux (pat : List Char) : List Char → Nat → Nat
  | [], _ => 0
  | _ :: rest, k + 1 => pyCountAux pat rest k
  | c :: rest, 0 =>
      if pat.isPrefixOf (c :: rest) then 1 + pyCountAux pat rest (pat.length - 1)
      else pyCountAux pat rest 0

/-- Model of Python sequence.count(pat): the number of non-overlapping
occurrences of pat in s, scanning left to right; an empty pattern yields
len(s) + 1, as in Python. -/
def pyCount (pat s : List Char) : Nat :=
  if pat = [] then s.length + 1 else pyCountAux pat s 0

/-- Number of all (possibly overlapping) start positions at which pat occurs
in s.  This is the counting semantics the specification ascribes to the
occurrence extractor; it is not what str.count computes. -/
def overlapCount (pat : List Char) : List Char → Nat
  | [] => 0
  | c :: rest => (if pat.isPrefixOf (c :: rest) then 1 else 0) + overlapCount pat rest

/-- itertools.product(alpha, repeat=n) as a list of n-character lists, in
product order: the rightmost position varies fastest. -/
def productRepeat (alpha : List Char) : Nat → List (List Char)
  | 0 => [[]]
  | n + 1 => alpha.flatMap (fun c => (productRepeat alpha n).map (fun t => c :: t))

/-- The ngrams list built at line 21 of generateFeatures.py inside
generate_ngram_composition: itertools.product raises ValueError for a
negative repeat and otherwise yields the full Cartesian power. -/
def compNgrams (n : Int) : Except PyError (List (List Char)) :=
  if n < 0 then .error .valueError else .ok (productRepeat aminoAcids n.toNat)

/-- The ngrams list built at line 43 of generateFeatures.py inside
generate_ngram_occurences; the expression is textually the same as line 21. -/
def occNgrams (n : Int) : Except PyError (List (List Char)) :=
  if n < 0 then .error .valueError else .ok (productRepeat aminoAcids n.toNat)

/-- Boolean equality on Except values, for deciding equations between
results of the embedded fallible functions. -/
def exceptBeq {ε α : Type} [DecidableEq ε] [DecidableEq α] :
    Except ε α → Except ε α → Bool
  | .ok a, .ok b => a = b
  | .error e, .error f => e = f
  | _, _ => false

instance {ε α : Type} [DecidableEq ε] [DecidableEq α] : DecidableEq (Except ε α) :=
  fun x y => decidable_of_iff (exceptBeq x y = true) (by
    cases x <;> cases y <;> simp [exceptBeq])

/-- Round a rational to the nearest integer, ties to the even integer: the
rounding convention of Python round, modelled exactly over the rationals.
Written with integer arithmetic on the numerator and denominator: f is the
floor of q and r its remainder, so q - f = r / q.den. -/
def roundHalfEven (q : ℚ) : ℤ :=
  let f : ℤ := Int.fdiv q.num (q.den : ℤ)
  let r : ℤ := q.num - f * (q.den : ℤ)
  if 2 * r < (q.den : ℤ) then f
  else if (q.den : ℤ) < 2 * r then f + 1
  else if f % 2 = 0 then f else f + 1

/-- Python round(x, 3) over the rationals: scale by 1000, round half to
even, scale back. -/
def pyRound3 (q : ℚ) : ℚ := (roundHalfEven (q * 1000) : ℚ) / 1000

/-- generate_ngram_composition of generateFeatures.py (lines 6-26): build the
ngram list, then evaluate round(sequence.count(ngram) / len(sequence), 3) for
each ngram in order; Python raises ZeroDivisionError at the first division
when the sequence is empty. -/
def generate_ngram_composition (sequence : List Char) (n : Int) :
    Except PyError (List ℚ) := do
  let ngrams ← compNgrams n
  ngrams.mapM (fun g =>
    if sequence.length = 0 then Except.error PyError.zeroDivisionError
    else Except.ok (pyRound3 ((pyCount g sequence : ℚ) / (sequence.length : ℚ))))

/-- generate_ngram_occurences of generateFeatures.py (lines 28-48): build the
ngram list, then return sequence.count(ngram) for each ngram in order. -/
def generate_ngram_occurences (sequence : List Char) (n : Int) :
    Except PyError (List Nat) := do
  let ngrams ← occNgrams n
  Except.ok (ngrams.map (fun g => pyCount g sequence))

/-- One iteration of the loop body of generate_features (lines 61-76): the
dataframe column name written and the value computed, for one feature
identifier and one record sequence.  Any identifier that is not one of the
four recognized names falls into the else branch, which writes bigram
occurrences under the column name BigramOccur.  Occurrence counts are Python
ints; the numeric column stores them as rationals. -/
def featureFor (feat : String) (seq : List Char) :
    String × Except PyError (List ℚ) :=
  if feat = "MonogramComp" then ("MonogramComp", generate_ngram_composition seq 1)
  else if feat = "BigramComp" then ("BigramComp", generate_ngram_composition seq 2)
  else if feat = "TrigramComp" then ("TrigramComp", generate_ngram_composition seq 3)
  else if feat = "MonogramOccur" then
    ("MonogramOccur",
      Except.map (fun l => l.map (Nat.cast : Nat → ℚ)) (generate_ngram_occurences seq 1))
  else
    ("BigramOccur",
      Except.map (fun l => l.map (Nat.cast : Nat → ℚ)) (generate_ngram_occurences seq 2))

/-- generate_features (lines 51-78) restricted to a single record, modelling
only the generated numeric feature columns: the loop assigns one dataframe
column per iteration, and the record row is the map from column name to the
numeric list stored there (none = column never assigned by the loop).  The
dataframe's pre-existing Sequence and Label columns from the CSV are not in
this restricted row; it is adequate for feature lists whose lookups only hit
generated columns (all names recognized).  The full row, base columns
included, is modelled below by generate_features_df. -/
def generate_features (features : List String) (seq : List Char) :
    Except PyError (String → Option (List ℚ)) :=
  features.foldlM
    (fun row feat =>
      Except.map
        (fun v => fun c => if c = (featureFor feat seq).1 then some v else row c)
        (featureFor feat seq).2)
    (fun _ => none)

/-- concatenate_columns (lines 80-94): concatenate row[col] over the given
column names in order; looking up a column that was never assigned raises
KeyError, as pandas does. -/
def concatenate_columns (row : String → Option (List ℚ)) (columns : List String) :
    Except PyError (List ℚ) :=
  columns.foldlM
    (fun acc c =>
      match row c with
      | some v => Except.ok (acc ++ v)
      | none => Except.error PyError.keyError)
    []

/-- The per-record core of process_features (lines 96-123): generate the
feature columns of the record, then build the combined Features entry by
concatenating the columns named in the caller-supplied feature list
(line 115). -/
def assembleRow (features : List String) (seq : List Char) :
    Except PyError (List ℚ) := do
  let row ← generate_features features seq
  concatenate_columns row features

/-- A dataframe cell as seen by concatenate_columns: a generated feature
column holds a Python list of numbers, the Sequence column holds a string,
the Label column holds an int. -/
inductive Cell where
  | numList : List ℚ → Cell
  | str : List Char → Cell
  | int : Int → Cell
  deriving DecidableEq

/-- An element of the concatenated Features list: feature columns contribute
numbers; extending with the Sequence string contributes its characters
(Python single-character strings). -/
inductive PyVal where
  | num : ℚ → PyVal
  | ch : Char → PyVal
  deriving DecidableEq

/-- The record row as loaded from the CSV (lines 107-108), before
generate_features runs: it already has the required Sequence and Label
columns of the dataset schema. -/
def baseRow (seq : List Char) (label : Int) : String → Option Cell :=
  fun c =>
    if c = "Sequence" then some (Cell.str seq)
    else if c = "Label" then some (Cell.int label)
    else none

/-- generate_features (lines 51-78) on a single record of the full dataframe
row: the loop starts from the CSV-loaded row and assigns one numeric column
per iteration. -/
def generate_features_df (features : List String) (seq : List Char) (label : Int) :
    Except PyError (String → Option Cell) :=
  features.foldlM
    (fun row feat =>
      Except.map
        (fun v => fun c =>
          if c = (featureFor feat seq).1 then some (Cell.numList v) else row c)
        (featureFor feat seq).2)
    (baseRow seq label)

/-- concatenate_columns (lines 80-94) on the full row: concatenated_list
+= row[col] extends a Python list with any iterable, so a numeric column
appends its numbers and the Sequence string appends its characters; an int
cell (the Label column) is not iterable and raises TypeError, and a missing
column raises KeyError, as pandas does. -/
def concatenate_columns_df (row : String → Option Cell) (columns : List String) :
    Except PyError (List PyVal) :=
  columns.foldlM
    (fun acc c =>
      match row c with
      | some (Cell.numList l) => Except.ok (acc ++ l.map PyVal.num)
      | some (Cell.str s) => Except.ok (acc ++ s.map PyVal.ch)
      | some (Cell.int _) => Except.error PyError.typeError
      | none => Except.error PyError.keyError)
    []

/-- The per-record core of process_features (lines 96-123) on the full
dataframe row, base columns included. -/
def assembleRowDf (features : List String) (seq : List Char) (label : Int) :
    Except PyError (List PyVal) := do
  let row ← generate_features_df features seq label
  concatenate_columns_df row features

/-- The kernel selected at lines 38-41 of predict.py. -/
inductive SVMModel where
  | rbf
  | linear
  deriving DecidableEq, Repr

/-- Lines 37-41 of predict.py: the local variable model1 after the if/elif
chain; none means the chain assigned nothing. -/
def classifiersSetup (model : String) : Option SVMModel :=
  if model = "svm-rbf" then some SVMModel.rbf
  else if model = "svm-linear" then some SVMModel.linear
  else none

/-- Line 44 of predict.py (model1.fit): reading model1 raises
UnboundLocalError when the if/elif chain assigned nothing; otherwise the
chosen classifier reaches the (external) fit call. -/
def classifiersFitStep (model : String) : Except PyError SVMModel :=
  match classifiersSetup model with
  | some m => Except.ok m
  | none => Except.error PyError.unboundLocalError

/-- Line 74 of predict.py: sensitivity (TP / (TP + FN)) * 100.0 on the
confusion-matrix cells; numpy integer true division 0/0 produces NaN without
raising, modelled as none. -/
def sensitivity (TP FN : Nat) : Option ℚ :=
  if TP + FN = 0 then none
  else some ((TP : ℚ) / ((TP : ℚ) + (FN : ℚ)) * 100)

/-- Line 75 of predict.py: specificity (TN / (TN + FP)) * 100.0, with the
same NaN-as-none convention. -/
def specificity (TN FP : Nat) : Option ℚ :=
  if TN + FP = 0 then none
  else some ((TN : ℚ) / ((TN : ℚ) + (FP : ℚ)) * 100)

/-- Lines 71-75 of predict.py: after TN, FP, FN, TP = CM.ravel(), the report
computes and prints sensitivity and specificity; no exception is raised on a
zero denominator (numpy division yields NaN), so this step always returns. -/
def reportSensSpec (TN FP FN TP : Nat) : Except PyError (Option ℚ × Option ℚ) :=
  Except.ok (sensitivity TP FN, specificity TN FP)

/-! Helper lemmas: the substring counter. -/

theorem pyCountAux_nil (pat : List Char) (skip : Nat) : pyCountAux pat [] skip = 0 := by
  simp [pyCountAux]

/-- Each counted match consumes pat.length characters of the text, so the
count times the pattern length never exceeds the text length; skip characters
are still consumed by the previous match. -/
theorem pyCountAux_mul_min_le (pat : List Char) :
    ∀ s : List Char, ∀ skip : Nat,
      pat.length * pyCountAux pat s skip + min skip s.length ≤ s.length := by
  intro s
  induction s with
  | nil => intro skip; simp [pyCountAux]
  | cons c rest ih =>
      intro skip
      cases skip with
      | succ k =>
          have h := ih k
          simp only [pyCountAux, List.length_cons]
          omega
      | zero =>
          by_cases hpre : pat.isPrefixOf (c :: rest)
          · have hlen : pat.length ≤ (c :: rest).length :=
              (List.isPrefixOf_iff_prefix.mp hpre).length_le
            have h := ih (pat.length - 1)
            simp only [pyCountAux, if_pos hpre, Nat.mul_add, Nat.mul_one,
              List.length_cons] at *
            omega
          · have h := ih 0
            simp only [pyCountAux, if_neg hpre, List.length_cons]
            omega

/-- The non-overlapping count is at most the floor of text length over
pattern length. -/
theorem pyCount_le_div (pat s : List Char) (hp : pat ≠ []) :
    pyCount pat s ≤ s.length / pat.length := by
  have hpos : 0 < pat.length := List.length_pos.mpr hp
  rw [Nat.le_div_iff_mul_le hpos, Nat.mul_comm]
  have h := pyCountAux_mul_min_le pat s 0
  simp only [pyCount, if_neg hp]
  omega

/-- Every match that str.count counts starts at some position, so the
non-overlapping count never exceeds the count of all match positions. -/
theorem pyCountAux_le_overlapCount (pat : List Char) :
    ∀ s : List Char, ∀ skip : Nat, pyCountAux pat s skip ≤ overlapCount pat s := by
  intro s
  induction s with
  | nil => intro skip; simp [pyCountAux, overlapCount]
  | cons c rest ih =>
      intro skip
      cases skip with
      | succ k =>
          have h := ih k
          simp only [pyCountAux, overlapCount]
          split <;> omega
      | zero =>
          by_cases hpre : pat.isPrefixOf (c :: rest)
          · have h := ih (pat.length - 1)
            simp only [pyCountAux, overlapCount, if_pos hpre]
            omega
          · have h := ih 0
            simp only [pyCountAux, overlapCount, if_neg hpre]
            omega

theorem pyCount_le_overlapCount (pat s : List Char) (hp : pat ≠ []) :
    pyCount pat s ≤ overlapCount pat s := by
  simp only [pyCount, if_neg hp]
  exact pyCountAux_le_overlapCount pat s 0

theorem pyCount_nil_right (pat : List Char) (hp : pat ≠ []) : pyCount pat [] = 0 := by
  simp [pyCount, if_neg hp, pyCountAux]

/-! Helper lemmas: the Cartesian power. -/

theorem length_productRepeat (alpha : List Char) :
    ∀ n : Nat, (productRepeat alpha n).length = alpha.length ^ n := by
  intro n
  induction n with
  | zero => simp [productRepeat]
  | succ n ih =>
      rw [productRepeat, List.length_flatMap]
      rw [show (List.length ∘ fun c => List.map (fun t => c :: t) (productRepeat alpha n))
            = fun _ => (productRepeat alpha n).length
          from funext fun c => by simp]
      rw [List.map_const', List.sum_replicate, smul_eq_mul, ih, pow_succ]
      ring

theorem mem_productRepeat (alpha : List Char) :
    ∀ (n : Nat) (w : List Char),
      w ∈ productRepeat alpha n ↔ w.length = n ∧ ∀ c ∈ w, c ∈ alpha := by
  intro n
  induction n with
  | zero =>
      intro w
      constructor
      · intro hw
        simp only [productRepeat, List.mem_singleton] at hw
        subst hw
        simp
      · intro hw
        have hnil : w = [] := List.length_eq_zero.mp hw.1
        simp [productRepeat, hnil]
  | succ n ih =>
      intro w
      constructor
      · intro hw
        simp only [productRepeat, List.mem_flatMap, List.mem_map] at hw
        obtain ⟨c, hc, t, ht, hw'⟩ := hw
        subst hw'
        have hmem := (ih t).mp ht
        refine ⟨by simp [hmem.1], ?_⟩
        intro d hd
        rcases List.mem_cons.mp hd with h | h
        · subst h; exact hc
        · exact hmem.2 d h
      · intro hw
        cases w with
        | nil => simp at hw
        | cons x xs =>
            simp only [productRepeat, List.mem_flatMap, List.mem_map]
            refine ⟨x, hw.2 x (List.mem_cons_self x xs), xs, ?_, rfl⟩
            refine (ih xs).mpr ⟨?_, ?_⟩
            · have hx := hw.1
              simp only [List.length_cons] at hx
              omega
            · intro d hd
              exact hw.2 d (List.mem_cons_of_mem x hd)

theorem nodup_productRepeat (alpha : List Char) (ha : alpha.Nodup) :
    ∀ n : Nat, (productRepeat alpha n).Nodup := by
  intro n
  induction n with
  | zero => simp [productRepeat]
  | succ n ih =>
      rw [productRepeat, List.nodup_flatMap]
      constructor
      · intro c _
        exact ih.map List.cons_injective
      · refine ha.imp ?_
        intro c d hcd
        simp only [Function.onFun]
        rw [List.disjoint_left]
        intro w hw hw'
        simp only [List.mem_map] at hw hw'
        obtain ⟨t, _, rfl⟩ := hw
        obtain ⟨t', _, h⟩ := hw'
        injection h with h1 _
        exact hcd h1.symm

/-- The product order is lexicographic in the order of the alphabet: the
rightmost position varies fastest, so the enumerated words are pairwise
increasing in the induced lexicographic order. -/
theorem pairwise_lex_productRepeat (alpha : List Char) (r : Char → Char → Prop)
    (ha : alpha.Pairwise r) :
    ∀ n : Nat, (productRepeat alpha n).Pairwise (List.Lex r) := by
  intro n
  induction n with
  | zero => simp [productRepeat]
  | succ n ih =>
      rw [productRepeat, List.pairwise_flatMap]
      constructor
      · intro c _
        rw [List.pairwise_map]
        exact ih.imp (fun h => List.Lex.cons h)
      · refine ha.imp ?_
        intro c d hcd x hx y hy
        simp only [List.mem_map] at hx hy
        obtain ⟨t, _, rfl⟩ := hx
        obtain ⟨t', _, rfl⟩ := hy
        exact List.Lex.rel hcd

/-! Helper lemmas: the Except monad plumbing of the extractors. -/

theorem except_bind_ok {α β : Type} (a : α) (f : α → Except PyError β) :
    (do let x ← Except.ok a; f x) = f a := rfl

theorem except_bind_error {α β : Type} (e : PyError) (f : α → Except PyError β) :
    (do let x ← (Except.error e : Except PyError α); f x) = Except.error e := rfl

theorem except_map_ok {α β : Type} (f : α → β) (a : α) :
    Except.map f (Except.ok a : Except PyError α) = Except.ok (f a) := rfl

theorem mapM_all_ok {α β : Type} (f : α → β) :
    ∀ l : List α,
      List.mapM (fun a => (Except.ok (f a) : Except PyError β)) l
        = Except.ok (l.map f) := by
  intro l
  induction l with
  | nil => rfl
  | cons a l ih => rw [List.mapM_cons, ih]; rfl

theorem mapM_error_head {α β : Type} (e : PyError) (g : α → Except PyError β)
    (a : α) (l : List α) (ha : g a = Except.error e) :
    List.mapM g (a :: l) = Except.error e := by
  rw [List.mapM_cons, ha]
  rfl

/-- On a nonempty sequence and non-negative n, the composition extractor
returns the rounded normalized counts in ngram order. -/
theorem generate_ngram_composition_eq (sequence : List Char) (hs : sequence ≠ [])
    (n : Int) (hn : 0 ≤ n) :
    generate_ngram_composition sequence n =
      Except.ok ((productRepeat aminoAcids n.toNat).map
        (fun g => pyRound3 ((pyCount g sequence : ℚ) / (sequence.length : ℚ)))) := by
  have hlen : sequence.length ≠ 0 := fun h => hs (List.length_eq_zero.mp h)
  rw [generate_ngram_composition, compNgrams, if_neg (show ¬ n < 0 by omega),
    except_bind_ok]
  rw [show (fun g => if sequence.length = 0 then Except.error PyError.zeroDivisionError
        else Except.ok (pyRound3 ((pyCount g sequence : ℚ) / (sequence.length : ℚ))))
      = fun g => Except.ok (pyRound3 ((pyCount g sequence : ℚ) / (sequence.length : ℚ)))
    from funext fun g => if_neg hlen]
  exact mapM_all_ok _ _

/-- For non-negative n, the occurrence extractor returns the raw counts in
ngram order. -/
theorem generate_ngram_occurences_eq (sequence : List Char) (n : Int) (hn : 0 ≤ n) :
    generate_ngram_occurences sequence n =
      Except.ok ((productRepeat aminoAcids n.toNat).map
        (fun g => pyCount g sequence)) := by
  rw [generate_ngram_occurences, occNgrams, if_neg (show ¬ n < 0 by omega),
    except_bind_ok]

/-- On the empty sequence the composition extractor raises ZeroDivisionError
as soon as the first ngram is processed, for any non-negative n. -/
theorem generate_ngram_composition_empty (n : Int) (hn : 0 ≤ n) :
    generate_ngram_composition [] n = Except.error PyError.zeroDivisionError := by
  rw [generate_ngram_composition, compNgrams, if_neg (show ¬ n < 0 by omega),
    except_bind_ok]
  have hne : productRepeat aminoAcids n.toNat ≠ [] := by
    apply List.ne_nil_of_length_pos
    rw [length_productRepeat, show aminoAcids.length = 20 from rfl]
    positivity
  obtain ⟨a, l, hl⟩ := List.exists_cons_of_ne_nil hne
  rw [hl]
  exact mapM_error_head _ _ _ _ (by simp)

/-- First entry of an occurrence result, when the call succeeded. -/
def firstOcc (r : Except PyError (List Nat)) : Option Nat :=
  match r with
  | .ok l => l.head?
  | .error _ => none

/-- First ngram of an enumeration result, when the call succeeded. -/
def firstNgram (r : Except PyError (List (List Char))) : Option (List Char) :=
  match r with
  | .ok l => l.head?
  | .error _ => none

/-- A word produced by the enumeration for n at least 1 is not empty. -/
theorem mem_productRepeat_ne_nil (n : Int) (hn : 1 ≤ n) (g : List Char)
    (hg : g ∈ productRepeat aminoAcids n.toNat) : g ≠ [] := by
  intro h
  have hmem := (mem_productRepeat aminoAcids n.toNat g).mp hg
  rw [h] at hmem
  have hlen := hmem.1
  simp only [List.length_nil] at hlen
  omega

/-- Claim C1 fails on the code: Python sequence.count is non-overlapping, so
the occurrence entry of the first bigram AA on the sequence AAA is 1, while
the number of possibly-overlapping matches of AA in AAA is 2. -/
theorem occurrence_overlap_counterexample :
    firstNgram (occNgrams 2) = some ("AA".data) ∧
    firstOcc (generate_ngram_occurences ("AAA".data) 2) = some 1 ∧
    overlapCount ("AA".data) ("AAA".data) = 2 := by
  refine ⟨by decide, by decide, by decide⟩

/-- Claim C1 (amended): for every sequence S and every k at least 1, the
occurrence extractor returns sequence.count of each enumerated k-mer, which
is the non-overlapping left-to-right substring count; it is bounded by, but
in general different from, the count of all possibly-overlapping matches
(occurrence of AA in AAA is 1, not 2). -/
theorem occurrence_counts_nonoverlapping (S : List Char) (n : Int) (hn : 1 ≤ n) :
    ∃ os L, occNgrams n = Except.ok L ∧
      generate_ngram_occurences S n = Except.ok os ∧
      os = L.map (fun g => pyCount g S) ∧
      ∀ g ∈ L, pyCount g S ≤ overlapCount g S := by
  refine ⟨(productRepeat aminoAcids n.toNat).map (fun g => pyCount g S),
    productRepeat aminoAcids n.toNat,
    by rw [occNgrams, if_neg (show ¬ n < 0 by omega)],
    generate_ngram_occurences_eq S n (by omega), rfl, ?_⟩
  intro g hg
  exact pyCount_le_overlapCount g S (mem_productRepeat_ne_nil n hn g hg)

/-- Witness for the amended claim C1 at S = AAA, k = 2. -/
theorem occurrence_counts_nonoverlapping_witness :
    ∃ os L, occNgrams 2 = Except.ok L ∧
      generate_ngram_occurences ("AAA".data) 2 = Except.ok os ∧
      os = L.map (fun g => pyCount g ("AAA".data)) ∧
      ∀ g ∈ L, pyCount g ("AAA".data) ≤ overlapCount g ("AAA".data) :=
  occurrence_counts_nonoverlapping ("AAA".data) 2 (by decide)

/-- Claim C2: for every non-empty sequence S and k in {1,2,3}, each
composition entry equals the matching occurrence entry divided by len(S)
and rounded to 3 decimal places, and every occurrence entry is a
non-negative integer. -/
theorem composition_occurrence_relation (S : List Char) (hS : S ≠ []) (n : Int)
    (hn : n = 1 ∨ n = 2 ∨ n = 3) :
    ∃ cs os, generate_ngram_composition S n = Except.ok cs ∧
      generate_ngram_occurences S n = Except.ok os ∧
      cs.length = os.length ∧
      ∀ i (h1 : i < cs.length) (h2 : i < os.length),
        cs.get ⟨i, h1⟩ = pyRound3 ((os.get ⟨i, h2⟩ : ℚ) / (S.length : ℚ)) ∧
        (0 : ℤ) ≤ (os.get ⟨i, h2⟩ : ℤ) := by
  have h0 : (0:Int) ≤ n := by omega
  refine ⟨_, _, generate_ngram_composition_eq S hS n h0,
    generate_ngram_occurences_eq S n h0, by simp, ?_⟩
  intro i h1 h2
  constructor
  · simp only [List.get_eq_getElem, List.getElem_map]
  · exact Int.natCast_nonneg _

/-- Witness for claim C2 at S = A, k = 1. -/
theorem composition_occurrence_relation_witness :
    ∃ cs os, generate_ngram_composition ("A".data) 1 = Except.ok cs ∧
      generate_ngram_occurences ("A".data) 1 = Except.ok os ∧
      cs.length = os.length ∧
      ∀ i (h1 : i < cs.length) (h2 : i < os.length),
        cs.get ⟨i, h1⟩ = pyRound3 ((os.get ⟨i, h2⟩ : ℚ) / (("A".data).length : ℚ)) ∧
        (0 : ℤ) ≤ (os.get ⟨i, h2⟩ : ℤ) :=
  composition_occurrence_relation ("A".data) (by decide) 1 (Or.inl rfl)

/-- Claim C3: for k in {1,2,3} the enumeration yields exactly 20^k words,
each exactly k symbols long, with no duplicates, sorted in the lexicographic
Cartesian-product order driven by the alphabet order (rightmost position
fastest), containing every k-letter word over the alphabet; the composition
and occurrence extractors build the identical list, and being a pure
function of n the list is the same on every call. -/
theorem ngram_enumeration_spec (n : Int) (hn : n = 1 ∨ n = 2 ∨ n = 3) :
    ∃ L, compNgrams n = Except.ok L ∧ occNgrams n = Except.ok L ∧
      L.length = 20 ^ n.toNat ∧
      (∀ w ∈ L, w.length = n.toNat) ∧
      L.Nodup ∧
      List.Sorted (List.Lex (· < ·)) L ∧
      (∀ w : List Char, w.length = n.toNat → (∀ c ∈ w, c ∈ aminoAcids) → w ∈ L) := by
  have h0 : ¬ n < 0 := by omega
  refine ⟨productRepeat aminoAcids n.toNat,
    by rw [compNgrams, if_neg h0], ?_, ?_, ?_, ?_, ?_, ?_⟩
  · rw [occNgrams, if_neg h0]
  · rw [length_productRepeat]
    norm_num [aminoAcids]
  · intro w hw
    exact ((mem_productRepeat aminoAcids n.toNat w).mp hw).1
  · exact nodup_productRepeat aminoAcids (by decide) n.toNat
  · exact pairwise_lex_productRepeat aminoAcids (· < ·) (by decide) n.toNat
  · intro w h1 h2
    exact (mem_productRepeat aminoAcids n.toNat w).mpr ⟨h1, h2⟩

/-- Witness for claim C3 at k = 1. -/
theorem ngram_enumeration_spec_witness :
    ∃ L, compNgrams 1 = Except.ok L ∧ occNgrams 1 = Except.ok L ∧
      L.length = 20 ^ (1 : Int).toNat ∧
      (∀ w ∈ L, w.length = (1 : Int).toNat) ∧
      L.Nodup ∧
      List.Sorted (List.Lex (· < ·)) L ∧
      (∀ w : List Char, w.length = (1 : Int).toNat →
        (∀ c ∈ w, c ∈ aminoAcids) → w ∈ L) :=
  ngram_enumeration_spec 1 (Or.inl rfl)

/-- Claim C5 fails on the code at k = 0: itertools.product with repeat=0
yields one empty tuple, so the enumeration returns the singleton list with
the empty ngram and the occurrence extractor returns a result (counting the
empty string: len + 1 = 3 on AA) instead of failing with a domain error. -/
theorem enumeration_k_zero_counterexample :
    compNgrams 0 = Except.ok [[]] ∧ occNgrams 0 = Except.ok [[]] ∧
    generate_ngram_occurences ("AA".data) 0 = Except.ok [3] := by
  refine ⟨by decide, by decide, by decide⟩

/-- Claim C5 (amended): only a negative k fails fast, with the ValueError
that itertools.product raises, propagated by both extractors; k = 0 returns
normally with the single empty ngram. -/
theorem enumeration_fails_for_negative_k (n : Int) (hn : n < 0) (S : List Char) :
    compNgrams n = Except.error PyError.valueError ∧
    occNgrams n = Except.error PyError.valueError ∧
    generate_ngram_composition S n = Except.error PyError.valueError ∧
    generate_ngram_occurences S n = Except.error PyError.valueError := by
  refine ⟨by rw [compNgrams, if_pos hn], by rw [occNgrams, if_pos hn], ?_, ?_⟩
  · rw [generate_ngram_composition, compNgrams, if_pos hn, except_bind_error]
  · rw [generate_ngram_occurences, occNgrams, if_pos hn, except_bind_error]

/-- Witness for the amended claim C5 at k = -1, S = AA. -/
theorem enumeration_fails_for_negative_k_witness :
    compNgrams (-1) = Except.error PyError.valueError ∧
    occNgrams (-1) = Except.error PyError.valueError ∧
    generate_ngram_composition ("AA".data) (-1) = Except.error PyError.valueError ∧
    generate_ngram_occurences ("AA".data) (-1) = Except.error PyError.valueError :=
  enumeration_fails_for_negative_k (-1) (by decide) ("AA".data)

/-- Claim C6: on the zero-length sequence the composition extractor fails
with the division error (Python ZeroDivisionError at the first ngram) and
never returns a value, for every k in {1,2,3}. -/
theorem composition_empty_sequence_fails (n : Int) (hn : n = 1 ∨ n = 2 ∨ n = 3) :
    generate_ngram_composition [] n = Except.error PyError.zeroDivisionError :=
  generate_ngram_composition_empty n (by omega)

/-- Witness for claim C6 at k = 1. -/
theorem composition_empty_sequence_fails_witness :
    generate_ngram_composition [] 1 = Except.error PyError.zeroDivisionError :=
  composition_empty_sequence_fails 1 (Or.inl rfl)

/-- Claim C10: for every sequence S and k at least 1 the occurrence call
returns normally, every entry is at most floor(len(S) / k), and on the empty
sequence every entry is 0. -/
theorem occurrence_entries_bounded (S : List Char) (n : Int) (hn : 1 ≤ n) :
    ∃ os, generate_ngram_occurences S n = Except.ok os ∧
      (∀ e ∈ os, e ≤ S.length / n.toNat) ∧
      (S = [] → ∀ e ∈ os, e = 0) := by
  refine ⟨_, generate_ngram_occurences_eq S n (by omega), ?_, ?_⟩
  · intro e he
    simp only [List.mem_map] at he
    obtain ⟨g, hg, rfl⟩ := he
    have hlen := ((mem_productRepeat aminoAcids n.toNat g).mp hg).1
    calc pyCount g S ≤ S.length / g.length :=
          pyCount_le_div g S (mem_productRepeat_ne_nil n hn g hg)
      _ = S.length / n.toNat := by rw [hlen]
  · intro hS e he
    simp only [List.mem_map] at he
    obtain ⟨g, hg, rfl⟩ := he
    rw [hS]
    exact pyCount_nil_right g (mem_productRepeat_ne_nil n hn g hg)

/-- The first two branches of the feature dispatch, evaluated. -/
theorem featureFor_mono (seq : List Char) :
    featureFor "MonogramComp" seq = ("MonogramComp", generate_ngram_composition seq 1) := rfl

theorem featureFor_bi (seq : List Char) :
    featureFor "BigramComp" seq = ("BigramComp", generate_ngram_composition seq 2) := rfl

/-- Any identifier other than the four recognized ones takes the else branch
and writes bigram occurrences under the BigramOccur column. -/
theorem featureFor_fallback (ident : String)
    (h1 : ident ≠ "MonogramComp") (h2 : ident ≠ "BigramComp")
    (h3 : ident ≠ "TrigramComp") (h4 : ident ≠ "MonogramOccur") (seq : List Char) :
    featureFor ident seq =
      ("BigramOccur",
        Except.map (fun l => l.map (Nat.cast : Nat → ℚ))
          (generate_ngram_occurences seq 2)) := by
  rw [featureFor, if_neg h1, if_neg h2, if_neg h3, if_neg h4]

/-- Row assembly over the feature list [MonogramComp, BigramComp]: the
monogram block is concatenated first, then the bigram block. -/
theorem assembleRow_mono_bi (S : List Char) (m b : List ℚ)
    (hm : generate_ngram_composition S 1 = Except.ok m)
    (hb : generate_ngram_composition S 2 = Except.ok b) :
    assembleRow ["MonogramComp", "BigramComp"] S = Except.ok (m ++ b) := by
  simp only [assembleRow, generate_features, concatenate_columns,
    List.foldlM_cons, List.foldlM_nil, featureFor_mono, featureFor_bi, hm, hb]
  rfl

/-- Witness for claim C10 at S = AAA, k = 2. -/
theorem occurrence_entries_bounded_witness :
    ∃ os, generate_ngram_occurences ("AAA".data) 2 = Except.ok os ∧
      (∀ e ∈ os, e ≤ ("AAA".data).length / (2 : Int).toNat) ∧
      ("AAA".data = [] → ∀ e ∈ os, e = 0) :=
  occurrence_entries_bounded ("AAA".data) 2 (by decide)

/-- Claim C4: with feature names [MonogramComp, BigramComp], the assembled
row vector of any record with a non-empty sequence has length 20 + 400, its
first 20 entries are the standalone MonogramComp vector and the next 400 are
the standalone BigramComp vector, in the caller-supplied block order. -/
theorem assembled_row_mono_bi (S : List Char) (hS : S ≠ []) :
    ∃ m b, generate_ngram_composition S 1 = Except.ok m ∧
      generate_ngram_composition S 2 = Except.ok b ∧
      assembleRow ["MonogramComp", "BigramComp"] S = Except.ok (m ++ b) ∧
      m.length = 20 ∧ b.length = 400 ∧ (m ++ b).length = 420 ∧
      (m ++ b).take 20 = m ∧ (m ++ b).drop 20 = b := by
  have hm := generate_ngram_composition_eq S hS 1 (by norm_num)
  have hb := generate_ngram_composition_eq S hS 2 (by norm_num)
  have lm : ((productRepeat aminoAcids (1 : Int).toNat).map
      (fun g => pyRound3 ((pyCount g S : ℚ) / (S.length : ℚ)))).length = 20 := by
    rw [List.length_map, length_productRepeat]
    rfl
  have lb : ((productRepeat aminoAcids (2 : Int).toNat).map
      (fun g => pyRound3 ((pyCount g S : ℚ) / (S.length : ℚ)))).length = 400 := by
    rw [List.length_map, length_productRepeat]
    rfl
  refine ⟨_, _, hm, hb, assembleRow_mono_bi S _ _ hm hb, lm, lb, ?_, ?_, ?_⟩
  · rw [List.length_append, lm, lb]
  · rw [← lm, List.take_left]
  · rw [← lm, List.drop_left]

/-- Witness for claim C4 at the one-letter record sequence A. -/
theorem assembled_row_mono_bi_witness :
    ∃ m b, generate_ngram_composition ("A".data) 1 = Except.ok m ∧
      generate_ngram_composition ("A".data) 2 = Except.ok b ∧
      assembleRow ["MonogramComp", "BigramComp"] ("A".data) = Except.ok (m ++ b) ∧
      m.length = 20 ∧ b.length = 400 ∧ (m ++ b).length = 420 ∧
      (m ++ b).take 20 = m ∧ (m ++ b).drop 20 = b :=
  assembled_row_mono_bi ("A".data) (by decide)

/-- Claim C7 fails on the code: for the unrecognized identifier Foo (which
names no column of the dataframe) the generation stage silently computes
BigramOccur features, but they are stored under the column name BigramOccur,
so the row-assembly lookup of the column Foo raises KeyError instead of
producing a 400-entry block. -/
theorem unrecognized_identifier_counterexample :
    assembleRowDf ["Foo"] ("A".data) 1 = Except.error PyError.keyError := by
  decide

/-- Claim C7 (amended): an unrecognized identifier silently falls back to
the BigramOccur extractor at the generation stage (same column name, same
value), but the fallback is stored under the column name BigramOccur, so row
assembly looks the identifier up among the dataframe's columns: an
identifier naming no column fails with KeyError, the identifier Sequence
succeeds by extending the row with the sequence's characters, the identifier
Label fails with TypeError (an int is not iterable), and the assembled row
has the 400-entry BigramOccur shape only for the identifier BigramOccur
itself, which also reaches the fallback branch. -/
theorem unrecognized_identifier_behavior (ident : String)
    (h1 : ident ≠ "MonogramComp") (h2 : ident ≠ "BigramComp")
    (h3 : ident ≠ "TrigramComp") (h4 : ident ≠ "MonogramOccur")
    (h5 : ident ≠ "BigramOccur") (h6 : ident ≠ "Sequence") (h7 : ident ≠ "Label")
    (S : List Char) (label : Int) :
    (featureFor ident S).1 = "BigramOccur" ∧
    (featureFor ident S).2 = (featureFor "BigramOccur" S).2 ∧
    assembleRowDf [ident] S label = Except.error PyError.keyError ∧
    assembleRowDf ["Sequence"] S label = Except.ok (S.map PyVal.ch) ∧
    assembleRowDf ["Label"] S label = Except.error PyError.typeError ∧
    ∃ v, assembleRowDf ["BigramOccur"] S label = Except.ok v ∧ v.length = 400 := by
  have hff := featureFor_fallback ident h1 h2 h3 h4 S
  have ho := generate_ngram_occurences_eq S 2 (by norm_num)
  refine ⟨by rw [hff], by rw [hff]; rfl, ?_, ?_, ?_, ?_⟩
  · simp only [assembleRowDf, generate_features_df, concatenate_columns_df,
      List.foldlM_cons, List.foldlM_nil, hff, ho, except_map_ok, except_bind_ok,
      pure_bind, baseRow]
    rw [if_neg h5, if_neg h6, if_neg h7]
    rfl
  · simp only [assembleRowDf, generate_features_df, concatenate_columns_df,
      List.foldlM_cons, List.foldlM_nil,
      featureFor_fallback "Sequence" (by decide) (by decide) (by decide)
        (by decide) S, ho, except_map_ok, except_bind_ok, pure_bind, baseRow]
    rfl
  · simp only [assembleRowDf, generate_features_df, concatenate_columns_df,
      List.foldlM_cons, List.foldlM_nil,
      featureFor_fallback "Label" (by decide) (by decide) (by decide)
        (by decide) S, ho, except_map_ok, except_bind_ok, pure_bind, baseRow]
    rfl
  · refine ⟨(((productRepeat aminoAcids (2 : Int).toNat).map
      (fun g => pyCount g S)).map (Nat.cast : Nat → ℚ)).map PyVal.num, ?_, ?_⟩
    · simp only [assembleRowDf, generate_features_df, concatenate_columns_df,
        List.foldlM_cons, List.foldlM_nil,
        featureFor_fallback "BigramOccur" (by decide) (by decide) (by decide)
          (by decide) S, ho, except_map_ok, except_bind_ok, pure_bind, baseRow]
      rfl
    · rw [List.length_map, List.length_map, List.length_map, length_productRepeat]
      rfl

/-- Witness for the amended claim C7 at identifier Foo, sequence A and
label 1. -/
theorem unrecognized_identifier_behavior_witness :
    (featureFor "Foo" ("A".data)).1 = "BigramOccur" ∧
    (featureFor "Foo" ("A".data)).2 = (featureFor "BigramOccur" ("A".data)).2 ∧
    assembleRowDf ["Foo"] ("A".data) 1 = Except.error PyError.keyError ∧
    assembleRowDf ["Sequence"] ("A".data) 1 = Except.ok (("A".data).map PyVal.ch) ∧
    assembleRowDf ["Label"] ("A".data) 1 = Except.error PyError.typeError ∧
    ∃ v, assembleRowDf ["BigramOccur"] ("A".data) 1 = Except.ok v ∧ v.length = 400 :=
  unrecognized_identifier_behavior "Foo" (by decide) (by decide) (by decide)
    (by decide) (by decide) (by decide) (by decide) ("A".data) 1

/-- Claim C8 fails on the code: for the unknown model kind svm-poly the
harness reaches model1.fit with model1 never assigned, raising Python's
UnboundLocalError, which is not the prescribed clear unsupported-model-kind
error (it does fail before fitting, and does not default silently). -/
theorem unsupported_model_counterexample :
    classifiersFitStep "svm-poly" = Except.error PyError.unboundLocalError ∧
    PyError.unboundLocalError ≠ PyError.unsupportedModelKind := by
  refine ⟨by decide, by decide⟩

/-- Claim C8 (amended): any model kind other than svm-rbf and svm-linear
makes the harness fail before fitting, but with an unbound-local-variable
error rather than a clear unsupported-model-kind error; no classifier is
silently selected. -/
theorem unknown_model_unbound_error (model : String)
    (h1 : model ≠ "svm-rbf") (h2 : model ≠ "svm-linear") :
    classifiersFitStep model = Except.error PyError.unboundLocalError ∧
    ∀ m, classifiersFitStep model ≠ Except.ok m := by
  have hstep : classifiersFitStep model = Except.error PyError.unboundLocalError := by
    rw [classifiersFitStep, classifiersSetup, if_neg h1, if_neg h2]
  refine ⟨hstep, ?_⟩
  intro m hm
  rw [hstep] at hm
  exact Except.noConfusion hm

/-- Witness for the amended claim C8 at model kind svm-poly. -/
theorem unknown_model_unbound_error_witness :
    classifiersFitStep "svm-poly" = Except.error PyError.unboundLocalError ∧
    ∀ m, classifiersFitStep "svm-poly" ≠ Except.ok m :=
  unknown_model_unbound_error "svm-poly" (by decide) (by decide)

/-- Claim C9 fails on the code: with the positive class absent from the test
set (TP = FN = 0, here TN = 2) the harness raises nothing; the report step
returns normally and the sensitivity value is NaN (modelled as none). -/
theorem sensitivity_nan_counterexample :
    reportSensSpec 2 0 0 0 = Except.ok (none, specificity 2 0) ∧
    sensitivity 0 0 = none := by
  refine ⟨rfl, rfl⟩

/-- Claim C9 (amended): the sensitivity division TP / (TP + FN) is not
guarded; when the positive class is absent the harness neither fails nor
raises a data-insufficiency error, it completes with a NaN sensitivity. -/
theorem report_sens_unguarded (TN FP FN TP : Nat) (h : TP + FN = 0) :
    reportSensSpec TN FP FN TP = Except.ok (none, specificity TN FP) ∧
    ∀ e : PyError, reportSensSpec TN FP FN TP ≠ Except.error e := by
  refine ⟨by rw [reportSensSpec, sensitivity, if_pos h], ?_⟩
  intro e he
  rw [reportSensSpec] at he
  exact Except.noConfusion he

/-- Witness for the amended claim C9 at the cells TN=2, FP=0, FN=0, TP=0. -/
theorem report_sens_unguarded_witness :
    reportSensSpec 2 0 0 0 = Except.ok (none, specificity 2 0) ∧
    ∀ e : PyError, reportSensSpec 2 0 0 0 ≠ Except.error e :=
  report_sens_unguarded 2 0 0 0 rfl

end PepBind
